import Mathlib

/-!
Verification development for the renpy_parser repository (a Ren'Py-style
script parser).  The Rust sources under src/ are shallowly embedded below:

* `list_logical_lines` (src/lib.rs)    — physical-to-logical line scanner,
  modelled as a character machine `lllScan` (the Rust nested loops become a
  `ScanMode` state: `normal` for the main loop, `instr` for the string loop).
* `depth_split`, `gll_core`, `group_logical_lines` (src/lib.rs).
* `Lexer` (src/lexer.rs) — a state-passing record; the regexes the lexer
  feeds to `match_regexp` are hand-translated matchers (the active parser
  only ever uses literal patterns, the three string-literal patterns, the
  word pattern, the audio-filename pattern and the fadeout pattern).
  Rust byte positions are modelled as character indices (all inputs
  considered are ASCII, where the two coincide).  The regex `\s` class is
  modelled by its ASCII subset.
* `AST`, `inject_node`, `parse_statement`, `parse_block` (src/parsers.rs).

Recursions that are not structural in the Rust (the scanner loop, the block
grouper, the recursive-descent parser) take an explicit fuel argument; every
entry point supplies fuel strictly larger than what the input can consume.
-/

/-- ParseError (src/lib.rs and src/parsers.rs; the two structs coincide). -/
structure ParseError where
  filename : String
  line_number : Nat
  message : String
  line : Option String
  pos : Option Nat
deriving Repr, DecidableEq

/-- ParseError::to_string of src/parsers.rs (the line/caret appenders are
commented out in the source, so only the one-line form remains). -/
def ParseError.toDisplay (e : ParseError) : String :=
  "On line " ++ toString e.line_number ++ " of " ++ e.filename ++ ": " ++ e.message

/-- LogicalLine (src/lib.rs). -/
structure LogicalLine where
  filename : String
  line_number : Nat
  text : String
deriving Repr, DecidableEq

def dquoteChar : Char := Char.ofNat 34
def squoteChar : Char := Char.ofNat 39
def bquoteChar : Char := Char.ofNat 96

/-- The regex class `\s` used by the scanner's blank-line test `^\s*$` and by
the lexer's whitespace skipping, modelled by its ASCII subset
(space, tab, newline, carriage return, vertical tab, form feed). -/
def rustWs (c : Char) : Bool :=
  c = ' ' || c = '\t' || c = '\n' || c = '\r' || c = Char.ofNat 11 || c = Char.ofNat 12

/-- A logical line is discarded when `^\s*$` matches its text. -/
def isBlankLine (line : List Char) : Bool := line.all rustWs

/-- State of the scanner character machine: `normal` is the main loop of
`list_logical_lines`, `instr delim escape` is its inner string-copying loop. -/
inductive ScanMode where
  | normal
  | instr (delim : Char) (escape : Bool)
deriving Repr, DecidableEq

def tabMsg : String := "Tab characters are not allowed in Ren'Py scripts"

def untermMsg : String := "is not terminated with a newline (check quotes and parenthesis)"

/-- The character loop of `list_logical_lines` (src/lib.rs).  Arguments mirror
the Rust locals: `number` is the current physical line, `startN` the
`start_number` of the logical line being accumulated, `paren` the
`parendepth`, `line` the accumulated text, `acc` the `rv` vector, `pos` the
index into the character vector.  Fuel is strictly larger than the number of
remaining characters at every call. -/
def lllScan (filename : String) :
    Nat → List Char → ScanMode → Nat → Nat → Nat → List Char →
    List LogicalLine → Nat → Except ParseError (List LogicalLine)
  | 0, _, _, _, _, _, _, _, _ =>
      .error ⟨filename, 0, "internal: fuel exhausted", none, none⟩
  | fuel + 1, cs, .normal, number, startN, paren, line, acc, pos =>
    match cs with
    | [] =>
      -- inner loop exhausted the input: the end-of-input check of the outer loop
      if line.isEmpty then .ok acc
      else .error ⟨filename, startN, untermMsg, none, some pos⟩
    | c :: rest =>
      if c = '\t' then
        .error ⟨filename, number, tabMsg, some (String.mk line), some pos⟩
      else if c = '\n' then
        if paren = 0 then
          -- line terminator: push unless blank, then break to the outer loop;
          -- note the Rust keeps `line` alive, so the end-of-input check after the
          -- break still sees it
          let acc := if isBlankLine line then acc
                     else acc ++ [⟨filename, startN, String.mk line⟩]
          if rest.isEmpty then
            if line.isEmpty then .ok acc
            else .error ⟨filename, startN, untermMsg, none, some (pos + 1)⟩
          else
            lllScan filename fuel rest .normal (number + 1) (number + 1) 0 [] acc (pos + 1)
        else
          -- newline inside brackets is data
          lllScan filename fuel rest .normal (number + 1) startN paren (line ++ ['\n']) acc (pos + 1)
      else if c = '\\' && rest.head? = some '\n' then
        -- backslash/newline continuation
        lllScan filename fuel rest.tail .normal (number + 1) startN paren (line ++ ['\n']) acc (pos + 2)
      else
        let paren := if c = '(' || c = '[' || c = '{' then paren + 1
                     else if (c = ')' || c = ']' || c = '}') && 0 < paren then paren - 1
                     else paren
        if c = '#' then
          -- comment: consume up to but not including the next newline
          lllScan filename fuel (rest.dropWhile (fun d => !(d = '\n'))) .normal number startN paren
            line acc (pos + 1 + (rest.takeWhile (fun d => !(d = '\n'))).length)
        else if c = dquoteChar || c = squoteChar || c = bquoteChar then
          lllScan filename fuel rest (.instr c false) number startN paren (line ++ [c]) acc (pos + 1)
        else
          lllScan filename fuel rest .normal number startN paren (line ++ [c]) acc (pos + 1)
  | fuel + 1, cs, .instr delim escape, number, startN, paren, line, acc, pos =>
    match cs with
    | [] =>
      -- string loop exhausted the input: the end-of-input check of the outer loop
      if line.isEmpty then .ok acc
      else .error ⟨filename, startN, untermMsg, none, some pos⟩
    | c :: rest =>
      let number := if c = '\n' then number + 1 else number
      if escape then
        lllScan filename fuel rest (.instr delim false) number startN paren (line ++ [c]) acc (pos + 1)
      else if c = delim then
        lllScan filename fuel rest .normal number startN paren (line ++ [c]) acc (pos + 1)
      else
        lllScan filename fuel rest (.instr delim (c = '\\')) number startN paren (line ++ [c]) acc (pos + 1)

/-- String::replace("\r\n", "\n"), as a list recursion (leftmost,
non-overlapping). -/
def replaceCRLF : List Char → List Char
  | '\r' :: '\n' :: rest => '\n' :: replaceCRLF rest
  | c :: rest => c :: replaceCRLF rest
  | [] => []

def bomChar : Char := Char.ofNat 0xfeff

/-- Rust `list_logical_lines` (src/lib.rs), on in-memory text (the file read is the
caller's; the RENPY_PATH_ELIDE environment lookup is outside the model).
Normalises line endings, appends the two-newline sentinel, skips a leading
BOM, then runs the scanner. -/
def list_logical_lines (filename : String) (data : String) :
    Except ParseError (List LogicalLine) :=
  let cs := replaceCRLF data.toList ++ ['\n', '\n']
  let pos0 := if cs.head? = some bomChar then 1 else 0
  let cs := if cs.head? = some bomChar then cs.tail else cs
  lllScan filename (cs.length + 1) cs .normal 1 1 0 [] [] pos0

/-- Block (src/lib.rs `Block` and src/lexer.rs `Block` coincide up to the name
of the text field, which lib.rs calls `content` and lexer.rs calls `text`). -/
structure Block where
  filename : String
  line_number : Nat
  text : String
  subblocks : List Block
deriving Repr

/-- Rust `depth_split` (src/lib.rs): the `while let Some(c) = chars.next()` loop
consumes the first non-space character before breaking, and the remainder is
`chars.collect()`, so that character is absent from the returned remainder. -/
def depth_split (line : String) : Nat × String :=
  go 0 line.toList
where
  go : Nat → List Char → Nat × String
  | depth, [] => (depth, "")
  | depth, c :: cs => if c = ' ' then go (depth + 1) cs else (depth, String.mk cs)

/-- Rust `gll_core` (src/lib.rs), with the index cursor replaced by the remaining
list; returns the blocks grouped at this level together with the unconsumed
lines.  `depth` is the sibling depth once the first sibling fixed it. -/
def gll_core :
    Nat → List LogicalLine → Nat → Option Nat →
    Except ParseError (List Block × List LogicalLine)
  | 0, _, _, _ => .error ⟨"", 0, "internal: fuel exhausted", none, none⟩
  | fuel + 1, lines, minDepth, depth =>
    match lines with
    | [] => .ok ([], [])
    | line :: rest =>
      let ds := depth_split line.text
      if ds.1 < minDepth then .ok ([], line :: rest)
      else
        let depth' := depth.getD ds.1
        if depth' ≠ ds.1 then
          .error ⟨line.filename, line.line_number, "indentation mismatch", none, none⟩
        else do
          let (subBlocks, rest₂) ← gll_core fuel rest (ds.1 + 1) none
          let (siblings, rest₃) ← gll_core fuel rest₂ minDepth (some depth')
          .ok (⟨line.filename, line.line_number, ds.2, subBlocks⟩ :: siblings, rest₃)

/-- Rust `group_logical_lines` (src/lib.rs). -/
def group_logical_lines (lines : List LogicalLine) : Except ParseError (List Block) := do
  let (blocks, _) ← gll_core (lines.length + 1) lines 0 none
  .ok blocks

/-- The keyword set installed by `Lexer::new` (src/lexer.rs). -/
def renpyKeywords : List String :=
  ["hide", "jump", "return", "scene", "show", "play", "define",
   "game_mechanic", "llm_generate", "scene_generate", "music_generate"]

/-- Lexer (src/lexer.rs), with `&mut self` methods turned into state passing. -/
structure Lexer where
  block : List Block
  init : Bool
  eob : Bool
  line : Int
  filename : String
  line_number : Nat
  text : List Char
  subblock : List Block
  pos : Nat

/-- Rust `Lexer::new` (src/lexer.rs). -/
def Lexer.new (block : List Block) (init : Bool) : Lexer :=
  { block := block, init := init, eob := false, line := -1, filename := "",
    line_number := 0, text := [], subblock := [], pos := 0 }

/-- Rust `Lexer::advance` (src/lexer.rs); the Bool result is ignored by every
caller in src/ and is dropped here. -/
def Lexer.advance (l : Lexer) : Lexer :=
  let line := l.line + 1
  if l.block.length ≤ line.toNat then
    { l with line := line, eob := true }
  else
    match l.block.get? line.toNat with
    | some b =>
      { l with line := line, filename := b.filename, line_number := b.line_number,
               text := b.text.toList, subblock := b.subblocks, pos := 0 }
    | none => { l with line := line, eob := true }

/-- Rust `Lexer::skip_whitespace` = `match_regexp("^\s+")` (src/lexer.rs). -/
def Lexer.skip_whitespace (l : Lexer) : Lexer :=
  if l.eob || l.pos = l.text.length then l
  else
    let run := (l.text.drop l.pos).takeWhile rustWs
    { l with pos := l.pos + run.length }

/-- First index at which `w` occurs as a sublist of `s` (the unanchored
`Regex::find` search used by `match_regexp` for a literal pattern). -/
def findSub (w : List Char) : List Char → Option Nat
  | [] => if w.isPrefixOf [] then some 0 else none
  | c :: rest =>
    if w.isPrefixOf (c :: rest) then some 0
    else (findSub w rest).map (· + 1)

/-- Rust `Lexer::match_regexp` (src/lexer.rs) for a literal pattern `w`:
`Regex::find` on the text after `pos`, advancing `pos` past the match end
and returning the matched text.  When `anchored` the pattern carried a
leading `^`. -/
def Lexer.match_regexp_lit (l : Lexer) (anchored : Bool) (w : List Char) :
    Option String × Lexer :=
  if l.eob || l.pos = l.text.length then (none, l)
  else
    let s := l.text.drop l.pos
    if anchored then
      if w.isPrefixOf s then (some (String.mk w), { l with pos := l.pos + w.length })
      else (none, l)
    else
      match findSub w s with
      | some i => (some (String.mk w), { l with pos := l.pos + i + w.length })
      | none => (none, l)

/-- Rust `Lexer::match_` (src/lexer.rs): skip whitespace, then match.  Every
pattern the statement parser passes here is a literal, optionally anchored
with a leading `^`. -/
def Lexer.match_ (l : Lexer) (regexp : String) : Option String × Lexer :=
  let l := l.skip_whitespace
  match regexp.toList with
  | '^' :: w => l.match_regexp_lit true w
  | w => l.match_regexp_lit false w

/-- Rust `Lexer::keyword` (src/lexer.rs) is exactly `match_(regexp)`: no word
boundary is appended. -/
def Lexer.keyword (l : Lexer) (regexp : String) : Option String × Lexer :=
  l.match_ regexp

/-- Rust `Lexer::error` (src/lexer.rs), as the ParseError it wraps in `Err`. -/
def Lexer.mkError (l : Lexer) (msg : String) : ParseError :=
  ⟨l.filename, l.line_number, msg, some (String.mk l.text), some l.pos⟩

/-- Rust `Lexer::eol` (src/lexer.rs); it skips whitespace, mutating `pos`. -/
def Lexer.eol (l : Lexer) : Bool × Lexer :=
  let l := l.skip_whitespace
  (decide (l.text.length ≤ l.pos), l)

/-- Rust `Lexer::expect_eol` (src/lexer.rs).  On failure the mutated lexer is
dropped with the error, as in Rust, where `?` discards everything but the
error; only `pos` differs and no caller reads it after a failure. -/
def Lexer.expect_eol (l : Lexer) : Except ParseError Lexer :=
  let (e, l) := l.eol
  if e then .ok l else .error (l.mkError "end of line expected")

/-- Rust `Lexer::expect_noblock` (src/lexer.rs). -/
def Lexer.expect_noblock (l : Lexer) (stmt : String) : Except ParseError Lexer :=
  if l.subblock.isEmpty then .ok l
  else .error (l.mkError
    (stmt ++ " does not expect a block. Please check the indentation of the line after this one."))

/-- Rust `Lexer::subblock_lexer` (src/lexer.rs). -/
def Lexer.subblock_lexer (l : Lexer) (init : Bool) : Lexer :=
  Lexer.new l.subblock (l.init || init)

/-- LexerState (src/lexer.rs). -/
structure LexerState where
  filename : String
  line_number : Nat
  text : List Char
  subblock : List Block
  pos : Nat

/-- Rust `Lexer::checkpoint` (src/lexer.rs). -/
def Lexer.checkpoint (l : Lexer) : LexerState :=
  ⟨l.filename, l.line_number, l.text, l.subblock, l.pos⟩

/-- Rust `Lexer::revert` (src/lexer.rs): restores everything but `line`/`eob`. -/
def Lexer.revert (l : Lexer) (s : LexerState) : Lexer :=
  { l with filename := s.filename, line_number := s.line_number, text := s.text,
           subblock := s.subblock, pos := s.pos }

/-- Rust `Lexer::get_location` (src/lexer.rs). -/
def Lexer.get_location (l : Lexer) : Nat := l.line_number

/-- Rust `Lexer::rest` (src/lexer.rs). -/
def Lexer.rest (l : Lexer) : String × Lexer :=
  let l := l.skip_whitespace
  (String.mk (l.text.drop l.pos), { l with pos := l.text.length })

/-- Body of a string literal for the pattern `([^\\D]|\\.)*D` with delimiter
`D`: returns how many characters a match starting here consumes, including
the closing delimiter.  `\\.` requires a non-newline after the backslash
(regex `.` does not match a newline); an unconsumable backslash stops the
star and then the closing delimiter fails, failing the whole attempt. -/
def strBody (delim : Char) : List Char → Option Nat
  | [] => none
  | c :: cs =>
    if c = delim then some 1
    else if c = '\\' then
      match cs with
      | [] => none
      | c2 :: cs2 => if c2 = '\n' then none else (strBody delim cs2).map (· + 2)
    else (strBody delim cs).map (· + 1)

/-- A match of `r?D([^\\D]|\\.)*D` starting at the head of the list:
the number of characters it consumes. -/
def tryStr (delim : Char) : List Char → Option Nat
  | [] => none
  | c :: cs =>
    if c = delim then (strBody delim cs).map (· + 1)
    else if c = 'r' then
      match cs with
      | [] => none
      | c2 :: cs2 => if c2 = delim then (strBody delim cs2).map (· + 2) else none
    else none

/-- Leftmost match of the string-literal pattern: start index and length. -/
def findStr (delim : Char) : List Char → Option (Nat × Nat)
  | [] => none
  | c :: rest =>
    match tryStr delim (c :: rest) with
    | some len => some (0, len)
    | none => (findStr delim rest).map (fun p => (p.1 + 1, p.2))

/-- Rust `match_` for one of the three string-literal regexes of `Lexer::string`
(src/lexer.rs), e.g. `r?"([^\\"]|\\.)*"`: whitespace skip, then an
unanchored search; `pos` advances to the end of the match and the matched
text (delimiters and optional r prefix included) is returned. -/
def Lexer.match_string_pat (l : Lexer) (delim : Char) : Option (List Char) × Lexer :=
  let l := l.skip_whitespace
  if l.eob || l.pos = l.text.length then (none, l)
  else
    let s := l.text.drop l.pos
    match findStr delim s with
    | some (i, len) => (some ((s.drop i).take len), { l with pos := l.pos + i + len })
    | none => (none, l)

/-- String::replace("\\n", "\n") of `Lexer::string`. -/
def replaceBackslashN : List Char → List Char
  | '\\' :: 'n' :: rest => '\n' :: replaceBackslashN rest
  | c :: rest => c :: replaceBackslashN rest
  | [] => []

def isHexD (c : Char) : Bool :=
  c.isDigit || ('a' ≤ c && c ≤ 'f') || ('A' ≤ c && c ≤ 'F')

def hexDigitVal (c : Char) : Nat :=
  if c.isDigit then c.toNat - 48
  else if 'a' ≤ c && c ≤ 'f' then c.toNat - 87
  else c.toNat - 55

def hexVal (ds : List Char) : Nat := ds.foldl (fun a c => a * 16 + hexDigitVal c) 0

/-- The `\\u([0-9a-fA-F]{1,4})` replace_all of `Lexer::string`: each escape
becomes the single byte `u8::from_str_radix(hex, 16)` re-read as UTF-8.
The Rust unwraps panic for values above 0x7f; `Char.ofNat` totalises the
model there (no input in this development reaches an escape at all). -/
def decodeU : Nat → List Char → List Char
  | 0, s => s
  | fuel + 1, '\\' :: 'u' :: rest =>
    let hex := (rest.takeWhile isHexD).take 4
    if hex.isEmpty then '\\' :: decodeU fuel ('u' :: rest)
    else Char.ofNat (hexVal hex) :: decodeU fuel (rest.drop hex.length)
  | fuel + 1, c :: rest => c :: decodeU fuel rest
  | _ + 1, [] => []

/-- The `\\.` replace_all of `Lexer::string`: a backslash escape is reduced
to the following character; `.` does not match a newline, so a backslash
before a newline is left in place. -/
def dropEscapes : List Char → List Char
  | '\\' :: c :: rest =>
    if c = '\n' then '\\' :: dropEscapes (c :: rest) else c :: dropEscapes rest
  | c :: rest => c :: dropEscapes rest
  | [] => []

/-- The `\s+` → " " replace_all of `Lexer::string`: each maximal whitespace
run becomes a single space. -/
def collapseWs : Bool → List Char → List Char
  | _, [] => []
  | prevWs, c :: rest =>
    if rustWs c then
      if prevWs then collapseWs true rest else ' ' :: collapseWs true rest
    else c :: collapseWs false rest

/-- The escape-decoding pipeline of `Lexer::string` for a non-r body. -/
def decodeStringBody (s : List Char) : List Char :=
  collapseWs false (dropEscapes (decodeU (s.length + 1) (replaceBackslashN s)))

/-- Rust `Lexer::string` (src/lexer.rs): try the double-quote, single-quote and
backquote patterns in that order; strip the first and last character of the
match, then — only if what REMAINS starts with `r` — strip one more
character and return it raw, otherwise decode escapes. -/
def Lexer.string (l : Lexer) : Option String × Lexer :=
  let (m, l) := l.match_string_pat dquoteChar
  let (m, l) :=
    match m with
    | some _ => (m, l)
    | none =>
      let (m2, l2) := l.match_string_pat squoteChar
      match m2 with
      | some _ => (m2, l2)
      | none => l2.match_string_pat bquoteChar
  match m with
  | none => (none, l)
  | some ms =>
    let s := (ms.drop 1).dropLast
    if s.head? = some 'r' then (some (String.mk (s.drop 1)), l)
    else (some (String.mk (decodeStringBody s)), l)

/-- First character class of the word regex
`[0-9a-zA-Z_\u00a0-\ufffd][0-9a-zA-Z_\u00a0-\ufffd.-]*` (anchored). -/
def isWordStart (c : Char) : Bool :=
  c.isAlphanum || c = '_' || (0xa0 ≤ c.toNat && c.toNat ≤ 0xfffd)

/-- Continuation class of the word regex (adds `.` and `-`). -/
def isWordCont (c : Char) : Bool := isWordStart c || c = '.' || c = '-'

/-- Rust `Lexer::word` (src/lexer.rs). -/
def Lexer.word (l : Lexer) : Option String × Lexer :=
  let l := l.skip_whitespace
  if l.eob || l.pos = l.text.length then (none, l)
  else
    match l.text.drop l.pos with
    | [] => (none, l)
    | c :: rest =>
      if isWordStart c then
        let run := c :: rest.takeWhile isWordCont
        (some (String.mk run), { l with pos := l.pos + run.length })
      else (none, l)

/-- Rust `Lexer::name` (src/lexer.rs): a word that is not in the keyword set;
on a keyword, `pos` is rewound and nothing is returned. -/
def Lexer.name (l : Lexer) : Option String × Lexer :=
  let oldpos := l.pos
  let (rv, l) := l.word
  match rv with
  | some w =>
    if renpyKeywords.contains w then (none, { l with pos := oldpos })
    else (some w, l)
  | none => (none, l)

/-- The regex `\w` class (ASCII subset, as this development models it). -/
def isRegexW (c : Char) : Bool := c.isAlphanum || c = '_'

/-- Whether the whole list matches the audio-filename regex
`"(W W*).+\.(\w)+"$` with W the class `[0-9a-zA-Z_\u00a0-\ufffd]`, whose
`$` pins the match to the very end of the remaining text: a double quote, a
word-class character, at least one more (non-newline) character, a dot, a
nonempty `\w` run, and a closing double quote ending the text. -/
def audioSuffixMatch (t : List Char) : Bool :=
  match t with
  | [] => false
  | q :: rest =>
    q = dquoteChar && t.getLast? = some dquoteChar && decide (1 ≤ rest.length) &&
    (let body := rest.dropLast
     let extLen := (body.reverse.takeWhile isRegexW).length
     decide (1 ≤ extLen) && decide (extLen + 3 ≤ body.length) &&
     body.get? (body.length - extLen - 1) = some '.' &&
     (match body.head? with
      | some c0 => isWordStart c0
      | none => false) &&
     ((body.take (body.length - extLen - 1)).drop 1).all (fun c => !(c = '\n')))

/-- Leftmost start of an audio-filename match (the match always extends to
the end of the text because of the `$`). -/
def audioFind : List Char → Option Nat
  | [] => none
  | c :: rest =>
    if audioSuffixMatch (c :: rest) then some 0
    else (audioFind rest).map (· + 1)

/-- Rust `Lexer::audio_filename` (src/lexer.rs). -/
def Lexer.audio_filename (l : Lexer) : Option String × Lexer :=
  let l := l.skip_whitespace
  if l.eob || l.pos = l.text.length then (none, l)
  else
    let s := l.text.drop l.pos
    match audioFind s with
    | some i => (some (String.mk (s.drop i)), { l with pos := l.text.length })
    | none => (none, l)

/-- Whether the whole list matches `fadeout \d+\.\d+` exactly to its end
(the second alternative of the stop_arguments regex, whose `$` pins it to
the end of the remaining text). -/
def fadeoutSuffix (t : List Char) : Bool :=
  "fadeout ".toList.isPrefixOf t &&
  (let u := t.drop 8
   let d1 := u.takeWhile Char.isDigit
   decide (1 ≤ d1.length) &&
   (match u.drop d1.length with
    | [] => false
    | c :: ds => c = '.' && decide (1 ≤ ds.length) && ds.all Char.isDigit))

/-- Leftmost start of a fadeout match. -/
def fadeoutFind : List Char → Option Nat
  | [] => none
  | c :: rest =>
    if fadeoutSuffix (c :: rest) then some 0
    else (fadeoutFind rest).map (· + 1)

def digitsVal (ds : List Char) : Nat := ds.foldl (fun a c => a * 10 + (c.toNat - 48)) 0

/-- str::parse::<f32> on a `\d+\.\d+` lexeme, modelled as the exact decimal
rational (exact for every value arising in this development, e.g. 1.5). -/
def parse_f32 (s : String) : ℚ :=
  let cs := s.toList
  let ip := cs.takeWhile Char.isDigit
  let fp := cs.drop (ip.length + 1)
  (digitsVal ip : ℚ) + (digitsVal fp : ℚ) / ((10 : ℚ) ^ fp.length)

/-- str::split(" "), as a list recursion. -/
def splitOnSpace (s : List Char) : List (List Char) :=
  go [] s
where
  go : List Char → List Char → List (List Char)
  | cur, [] => [cur.reverse]
  | cur, c :: rest => if c = ' ' then cur.reverse :: go [] rest else go (c :: cur) rest

/-- Rust `Lexer::stop_arguments` (src/lexer.rs): `match_("^[a&&b]|(fadeout \d+\.\d+)$")`.
The first alternative is an empty character class (the intersection of
disjoint singletons) and can never match, so the pattern is modelled as the
fadeout alternative alone; on a match, split on the space and parse the
second part as f32. -/
def Lexer.stop_arguments (l : Lexer) : (Option String × Option ℚ) × Lexer :=
  let l := l.skip_whitespace
  if l.eob || l.pos = l.text.length then ((none, none), l)
  else
    let s := l.text.drop l.pos
    match fadeoutFind s with
    | some i =>
      let rmatch := s.drop i
      if rmatch.isEmpty then ((none, none), { l with pos := l.text.length })
      else
        match splitOnSpace rmatch with
        | p0 :: p1 :: _ =>
          ((some (String.mk p0), some (parse_f32 (String.mk p1))), { l with pos := l.text.length })
        | _ => ((none, none), { l with pos := l.text.length })
    | none => ((none, none), l)

/-- AST (src/parsers.rs).  The `f32` fade length of `Stop` is modelled as an
exact rational (see `parse_f32`). -/
inductive AST where
  | Define (loc : Nat) (definition : String)
  | Hide (loc : Nat) (image : String)
  | Jump (loc : Nat) (label : String) (expression : Bool)
  | Label (loc : Nat) (name : String) (block : List AST) (parameters : Option String)
  | Play (loc : Nat) (sound_type : String) (filename : String)
  | Return (loc : Nat) (expr : Option String)
  | Say (loc : Nat) (who : Option String) (what : String)
  | Scene (loc : Nat) (name : Option String) (layer : String)
  | Show (loc : Nat) (image_name : String)
  | Stop (loc : Nat) (audio_specifier : String) (effect : Option String) (length : Option ℚ)
  | GameMechanic (loc : Nat) (mechanic : String)
  | LLMGenerate (loc : Nat) (character : String) (prompt : Option String)
  | Comment (loc : Nat) (comment : String)
  | Error
deriving Repr

/-- Rust `AST::index` (src/parsers.rs).  On `Error` the Rust is `todo!()` and
panics; the model totalises it with 0, and every claim about `index`
excludes the `Error` variant. -/
def AST.index : AST → Nat
  | .Define i _ => i
  | .Hide i _ => i
  | .Jump i _ _ => i
  | .Label i _ _ _ => i
  | .Play i _ _ => i
  | .Return i _ => i
  | .Say i _ _ => i
  | .Scene i _ _ => i
  | .Show i _ => i
  | .Stop i _ _ _ => i
  | .GameMechanic i _ => i
  | .LLMGenerate i _ _ => i
  | .Comment i _ => i
  | .Error => 0

/-- Rust `AST::set_index` (src/parsers.rs).  On `Error` the Rust is `todo!()` and
panics; the model leaves the node unchanged, and every claim about
`set_index` excludes the `Error` variant. -/
def AST.set_index : AST → Nat → AST
  | .Define _ a, i => .Define i a
  | .Hide _ a, i => .Hide i a
  | .Jump _ a b, i => .Jump i a b
  | .Label _ a b c, i => .Label i a b c
  | .Play _ a b, i => .Play i a b
  | .Return _ a, i => .Return i a
  | .Say _ a b, i => .Say i a b
  | .Scene _ a b, i => .Scene i a b
  | .Show _ a, i => .Show i a
  | .Stop _ a b c, i => .Stop i a b c
  | .GameMechanic _ a, i => .GameMechanic i a
  | .LLMGenerate _ a b, i => .LLMGenerate i a b
  | .Comment _ a, i => .Comment i a
  | .Error, _ => .Error

/-- Rust `inject_node` (src/parsers.rs): shift the index of every node at or
above the new node's index, append the new node, and stable-sort by index
(`sort_by_key`). -/
def inject_node (ast : List AST) (node : AST) : List AST :=
  let node_index := node.index
  let shifted_ast := ast.map (fun item =>
    if node_index ≤ item.index then item.set_index (item.index + 1) else item)
  let shifted_ast := shifted_ast ++ [node]
  shifted_ast.mergeSort (fun a b => a.index ≤ b.index)

/-- String::replace("\n", "\n    ") used by the Label arm of the Display
impl (src/parsers.rs). -/
def indentNl : List Char → List Char
  | '\n' :: rest => '\n' :: ' ' :: ' ' :: ' ' :: ' ' :: indentNl rest
  | c :: rest => c :: indentNl rest
  | [] => []

def qt : String := String.mk [dquoteChar]

mutual
/-- The Display impl for AST (src/parsers.rs). -/
def AST.format : AST → String
  | .Define _ definition => "define " ++ definition
  | .Hide _ image => "hide " ++ image
  | .Jump _ label _ => "jump " ++ label
  | .Label _ name block _ =>
    "label " ++ name ++ ":\n    " ++ String.mk (indentNl (astVecFormat block).toList)
  | .Play _ sound_type filename => "play " ++ sound_type ++ " " ++ qt ++ filename ++ qt
  | .Return _ _ => "return"
  | .Say _ who what =>
    match who with
    | some w => w ++ " " ++ qt ++ what ++ qt
    | none => qt ++ what ++ qt
  | .Scene _ name _ => "scene " ++ name.getD ""
  | .Show _ image_name => "show " ++ image_name
  | .Stop _ audio_specifier _ _ => "stop " ++ audio_specifier
  | .GameMechanic _ mechanic => "game_mechanic " ++ qt ++ mechanic ++ qt
  | .LLMGenerate _ character prompt =>
    "llm_generate " ++ character ++ " " ++ qt ++ prompt.getD "" ++ qt
  | .Comment _ comment => "#" ++ comment
  | .Error => ""

/-- The Display impl for ASTVec (src/parsers.rs): elements joined by "\n". -/
def astVecFormat : List AST → String
  | [] => ""
  | [a] => a.format
  | a :: b :: rest => a.format ++ "\n" ++ astVecFormat (b :: rest)
end

/-- The error channel of the statement parser:ParseError (rendered "On line
L of F: MSG") or a bare anyhow!(…) message. -/
inductive PError where
  | parse (e : ParseError)
  | msg (s : String)
deriving Repr, DecidableEq

/-- format!("{}", e) on the anyhow error returned by `parse_statement`. -/
def PError.display : PError → String
  | .parse e => e.toDisplay
  | .msg s => s

/-- The name-collecting loop of `parse_image_name` (src/parsers.rs); a
successful `name()` consumes at least one character, so the text length
bounds the iteration count and the fuel supplied is never exhausted. -/
def parse_image_name_loop : Nat → Lexer → List String × Lexer
  | 0, l => ([], l)
  | fuel + 1, l =>
    let (n, l) := l.name
    match n with
    | some s =>
      let (more, l) := parse_image_name_loop fuel l
      (s.trim :: more, l)
    | none => ([], l)

/-- Rust `parse_image_name` (src/parsers.rs). -/
def parse_image_name (l : Lexer) : List String × Lexer :=
  let (n, l) := l.name
  let name := n.getD ""
  let (more, l) := parse_image_name_loop (l.text.length + 1) l
  (name :: more, l)

/-- Rust `parse_image_specifier` (src/parsers.rs); its Result is always Ok. -/
def parse_image_specifier (l : Lexer) : (String × Option String × String) × Lexer :=
  let (image_names, l) := parse_image_name l
  ((String.intercalate " " image_names, none, "master"), l)

/-- Rust `parse_audio_specifier` (src/parsers.rs). -/
def parse_audio_specifier (l : Lexer) : Except PError String × Lexer :=
  let (n, l) := l.name
  let play_type := n.getD ""
  if play_type = "music" || play_type = "sound" then (.ok play_type, l)
  else (.error (.msg "Play or sound is required"), l)

/-- Rust `parse_audio_filename` (src/parsers.rs); `.replace("\"", "")` removes
every double quote. -/
def parse_audio_filename (l : Lexer) : Except PError String × Lexer :=
  let (af, l) := l.audio_filename
  match af with
  | none => (.error (.msg "provide mp3, ogg or wav file"), l)
  | some s => (.ok (String.mk (s.toList.filter (fun c => !(c = dquoteChar)))), l)

/-- Rust `parse_statement` (src/parsers.rs), parameterised by the `parse_block`
it calls from the label branch (tied by fuel below).  Branch order, error
strings and lexer mutations mirror the source; `parse_with` is the identity
on its node and is inlined. -/
def parse_statement_with (pb : Lexer → List AST × List String) (l : Lexer) :
    Except PError AST × Lexer :=
  let loc := l.get_location
  let (kComment, l) := l.keyword "^#"
  if kComment.isSome then
    let (rest, l) := l.rest
    match l.expect_eol with
    | .error e => (.error (.parse e), l)
    | .ok l => (.ok (.Comment loc rest), l.advance)
  else
  let (kReturn, l) := l.keyword "^return"
  if kReturn.isSome then
    match l.expect_noblock "return statement" with
    | .error e => (.error (.parse e), l)
    | .ok l =>
      let (rest, l) := l.rest
      match l.expect_eol with
      | .error e => (.error (.parse e), l)
      | .ok l => (.ok (.Return loc (some rest)), l.advance)
  else
  let (kJump, l) := l.keyword "^jump"
  if kJump.isSome then
    match l.expect_noblock "jump statement" with
    | .error e => (.error (.parse e), l)
    | .ok l =>
      let (n, l) := l.name
      let target := n.getD ""
      match l.expect_eol with
      | .error e => (.error (.parse e), l)
      | .ok l => (.ok (.Jump loc target false), l.advance)
  else
  let (kScene, l) := l.keyword "^scene"
  if kScene.isSome then
    match l.expect_noblock "scene statement" with
    | .error e => (.error (.parse e), l)
    | .ok l =>
      let (isEol, l) := l.eol
      if isEol then (.ok (.Scene loc none "master"), l.advance)
      else
        let (spec, l) := parse_image_specifier l
        (.ok (.Scene loc (some spec.1) "master"), l.advance)
  else
  let (kGm, l) := l.keyword "^game_mechanic"
  if kGm.isSome then
    let (argument, l) := l.string
    match argument with
    | none => (.error (.parse (l.mkError "Expected a string after 'game_mechanic' keyword.")), l)
    | some arg =>
      match l.expect_eol with
      | .error e => (.error (.parse e), l)
      | .ok l =>
        match l.expect_noblock "game_mechanic statement" with
        | .error e => (.error (.parse e), l)
        | .ok l => (.ok (.GameMechanic loc arg), l.advance)
  else
  let (kLlm, l) := l.keyword "^llm_generate"
  if kLlm.isSome then
    let (w, l) := l.word
    match w with
    | some who =>
      let (prompt, l) := l.string
      match l.expect_eol with
      | .error e => (.error (.parse e), l)
      | .ok l =>
        match l.expect_noblock "game_mechanic statement" with
        | .error e => (.error (.parse e), l)
        | .ok l => (.ok (.LLMGenerate loc who prompt), l.advance)
    | none => (.error (.parse (l.mkError "Expected word after 'llm_generate' keyword.")), l)
  else
  let (kShow, l) := l.keyword "^show"
  if kShow.isSome then
    let (spec, l) := parse_image_specifier l
    let rv := AST.Show loc spec.1
    match l.expect_eol with
    | .error e => (.error (.parse e), l)
    | .ok l =>
      match l.expect_noblock "show statement" with
      | .error e => (.error (.parse e), l)
      | .ok l => (.ok rv, l.advance)
  else
  let (kHide, l) := l.keyword "^hide"
  if kHide.isSome then
    let (spec, l) := parse_image_specifier l
    let rv := AST.Hide loc spec.1
    match l.expect_eol with
    | .error e => (.error (.parse e), l)
    | .ok l =>
      match l.expect_noblock "hide statement" with
      | .error e => (.error (.parse e), l)
      | .ok l => (.ok rv, l.advance)
  else
  let (kPlay, l) := l.keyword "^play"
  if kPlay.isSome then
    let (pt, l) := parse_audio_specifier l
    match pt with
    | .error e => (.error e, l)
    | .ok play_type =>
      let (fn, l) := parse_audio_filename l
      match fn with
      | .error e => (.error e, l)
      | .ok filename =>
        match l.expect_eol with
        | .error e => (.error (.parse e), l)
        | .ok l => (.ok (.Play loc play_type filename), l.advance)
  else
  let (kStop, l) := l.keyword "^stop"
  if kStop.isSome then
    let (sp, l) := parse_audio_specifier l
    match sp with
    | .error e => (.error e, l)
    | .ok audio_specifier =>
      let (args, l) := l.stop_arguments
      match l.expect_eol with
      | .error e => (.error (.parse e), l)
      | .ok l => (.ok (.Stop loc audio_specifier args.1 args.2), l.advance)
  else
  let (kLabel, l) := l.keyword "^label"
  if kLabel.isSome then
    let (n, l) := l.name
    let name := n.getD ""
    let (block_ast, block_err) := pb (l.subblock_lexer false)
    match block_err with
    | err :: _ => (.error (.parse (l.mkError err)), l)
    | [] => (.ok (.Label loc name block_ast none), l.advance)
  else
  let (kDefine, l) := l.keyword "^define"
  if kDefine.isSome then
    let (definition, l) := l.rest
    match l.expect_eol with
    | .error e => (.error (.parse e), l)
    | .ok l => (.ok (.Define loc definition), l.advance)
  else
  -- user statements / say statements
  let state := l.checkpoint
  let (w, l) := l.word
  match w with
  | some word =>
    let (text, l) := l.string
    match text with
    | none => (.error (.parse (l.mkError "empty text in say statement")), l)
    | some t =>
      match l.expect_noblock (word ++ " statement") with
      | .error e => (.error (.parse e), l)
      | .ok l => (.ok (.Say loc (some word) t), l.advance)
  | none =>
    let l := l.revert state
    let (what, l) := l.string
    match what with
    | some whatS =>
      let (isEol, l) := l.eol
      if isEol then
        match l.expect_noblock "say statement" with
        | .error e => (.error (.parse e), l)
        | .ok l => (.ok (.Say loc none whatS), l.advance)
      else (.error (.parse (l.mkError "expected statement.")), l)
    | none => (.error (.parse (l.mkError "expected statement.")), l)

/-- The statement loop of `parse_block` (src/parsers.rs), after the initial
`advance`.  Fuel bounds both the loop and the nesting depth; every entry
point supplies more than the input can consume. -/
def parse_block_core : Nat → Lexer → List AST × List String
  | 0, _ => ([], ["internal: fuel exhausted"])
  | fuel + 1, l =>
    if l.eob then ([], [])
    else
      let (r, l) := parse_statement_with (fun sub => parse_block_core fuel sub.advance) l
      match r with
      | .ok stmt =>
        let (rv, errs) := parse_block_core fuel l
        (stmt :: rv, errs)
      | .error e =>
        let (rv, errs) := parse_block_core fuel l.advance
        (rv, e.display :: errs)

/-- Rust `parse_block` (src/parsers.rs). -/
def parse_block (fuel : Nat) (l : Lexer) : List AST × List String :=
  parse_block_core fuel l.advance

/-- Rust `parse_statement` (src/parsers.rs), its label branch recursing into
`parse_block` with the given fuel. -/
def parse_statement (fuel : Nat) (l : Lexer) : Except PError AST × Lexer :=
  parse_statement_with (parse_block fuel) l

/-- Modelled from the spec: the end-to-end entry point `parse_scenario(text,
filename_label)` — the spec's data flow text → LineScanner → BlockGrouper →
TokenCursor → StatementParser.  The composing entry point itself is not
present under src/; each of the three composed stages is, and is embedded
above. -/
def parse_scenario (filename data : String) :
    Except ParseError (List AST × List String) := do
  let lines ← list_logical_lines filename data
  let blocks ← group_logical_lines lines
  .ok (parse_block (4 * data.length + 16) (Lexer.new blocks false))

/-- A Lexer loaded on a single block with the given text (the state
`Lexer::new` followed by one `advance` reaches on a one-block input). -/
def lexerOn (t : String) : Lexer :=
  (Lexer.new [⟨"f", 1, t, []⟩] false).advance

/-- Projection of a scan result to the fields the error claims speak about:
the message and the reported line number. -/
def errInfo {α : Type} : Except ParseError α → Option (String × Nat)
  | .error e => some (e.message, e.line_number)
  | .ok _ => none

/-- C1: running the full pipeline on
`label start:\n    "Hello, world."\n    return\n`.  Because `depth_split`
drops the first non-space character of every logical line, the root block
text is `abel start:`; no keyword matches it, the say fallback finds the
word `abel` but no string literal, and the statement is rejected, so the
result is no AST nodes and one soft error — not the Label tree the claim
states. -/
theorem c1_pipeline_actual :
    parse_scenario "script.rpy" "label start:\n    \"Hello, world.\"\n    return\n"
      = .ok ([], ["On line 1 of script.rpy: empty text in say statement"]) := by
  rfl

/-- C2: `depth_split` does not return the text minus exactly its leading
spaces: the `while let Some(c) = chars.next()` loop has consumed the first
non-space character when it breaks, and `chars.collect()` omits it, so
`depth_split "ab" = (0, "b")`, and the Block produced from a logical line
`ab` carries text `b`. -/
theorem c2_depth_split_drops_char :
    depth_split "ab" = (0, "b") ∧
    depth_split "ab" ≠ (0, "ab") ∧
    depth_split "  ab" = (2, "b") ∧
    group_logical_lines [⟨"f", 1, "ab"⟩] = .ok [⟨"f", 1, "b", []⟩] := by
  refine ⟨rfl, by decide, rfl, rfl⟩

/-- C4 counterexample: `Lexer::keyword` is `match_(regexp)` with no word
boundary, so `keyword("return")` (and the anchored `keyword("^return")` the
statement parser uses) succeeds on `returning`, consuming the keyword out of
a longer identifier; moreover an unanchored pattern is searched with
`Regex::find` over the remaining text, so a match need not start at the
current position: on `xxreturnyy` the keyword matches at offset 2, and
`string()` on `junk "hi"` skips the leading junk and returns the literal. -/
theorem c4_keyword_no_word_boundary :
    ((lexerOn "returning").keyword "return").1 = some "return" ∧
    ((lexerOn "returning").keyword "^return").1 = some "return" ∧
    ((lexerOn "returning").keyword "^return").2.pos = 6 ∧
    ((lexerOn "xxreturnyy").keyword "return").1 = some "return" ∧
    ((lexerOn "junk \"hi\"").string).1 = some "hi" := by
  refine ⟨rfl, rfl, rfl, rfl, rfl⟩

/-- A lexer positioned at offset 0 of a line with the given text (the block
iteration fields play no role in the single-line lexing claims). -/
def lexerOnChars (t : List Char) : Lexer :=
  { Lexer.new [] false with filename := "f", line_number := 1, text := t, pos := 0 }

theorem isPrefixOf_append_self (l s : List Char) : l.isPrefixOf (l ++ s) = true := by
  induction l with
  | nil => simp
  | cons c cs ih => simp [List.isPrefixOf_cons₂, ih]

/-- C4 amended: `keyword(w)` is `match_(w)` with no word-boundary check.
With the `^`-anchored patterns the statement parser passes, it matches `w`
at the current position whenever `w` is a textual prefix of the remaining
text — also when `w` is a proper prefix of a longer identifier — and
consumes exactly `w`: for every continuation `s`, `keyword("^return")` on
`return` ++ `s` returns `return` and leaves the position at 6.  (Unanchored
patterns are searched anywhere in the remaining text, as the counterexample
records.) -/
theorem c4_keyword_amended (s : List Char) :
    (lexerOnChars ('r' :: 'e' :: 't' :: 'u' :: 'r' :: 'n' :: s)).keyword "^return"
      = (some "return",
         { lexerOnChars ('r' :: 'e' :: 't' :: 'u' :: 'r' :: 'n' :: s) with pos := 6 }) := by
  have h : List.isPrefixOf "return".toList ('r' :: 'e' :: 't' :: 'u' :: 'r' :: 'n' :: s) = true :=
    isPrefixOf_append_self "return".toList s
  simp [Lexer.keyword, Lexer.match_, Lexer.match_regexp_lit, Lexer.skip_whitespace,
        lexerOnChars, Lexer.new, rustWs, h]

/-- C5: `Lexer::string` strips the first and last character of the match
BEFORE testing for the `r` prefix, so an r-literal `r"abc"` is returned as
`"abc` — the opening quote retained, not the claimed verbatim body `abc` —
while an ordinary literal whose body starts with `r`, such as `"rabbit"`,
loses that character and becomes `abbit`. -/
theorem c5_string_r_prefix_actual :
    ((lexerOn "r\"abc\"").string).1 = some "\"abc" ∧
    ((lexerOn "r\"abc\"").string).1 ≠ some "abc" ∧
    ((lexerOn "\"rabbit\"").string).1 = some "abbit" := by
  refine ⟨rfl, by decide, rfl⟩

/-- C6: running the full pipeline on
`play music "song.ogg"\nstop music fadeout 1.5\n`.  `depth_split` drops the
first character of each line, so the texts become `lay music "song.ogg"` and
`top music fadeout 1.5`; neither `^play` nor `^stop` matches, the first line
parses as the say statement `Say(1, some "lay", "song.ogg")` (the unanchored
string search skips `music `), and the second is rejected — not the
Play/Stop pair the claim states.  At the lexer level, `stop_arguments` on
`fadeout 1.5` does return (some "fadeout", some 1.5), and (none, none) with
no fadeout clause present. -/
theorem c6_pipeline_actual :
    parse_scenario "script.rpy" "play music \"song.ogg\"\nstop music fadeout 1.5\n"
      = .ok ([.Say 1 (some "lay") "song.ogg"],
             ["On line 2 of script.rpy: empty text in say statement"]) ∧
    ((lexerOn "fadeout 1.5").stop_arguments).1 = (some "fadeout", some ((3 : ℚ) / 2)) ∧
    ((lexerOn "music").stop_arguments).1 = (none, none) := by
  refine ⟨rfl, ?_, rfl⟩
  have h15 : parse_f32 "1.5" = 3 / 2 := by
    have h : parse_f32 "1.5" = ((1 : Nat) : ℚ) + ((5 : Nat) : ℚ) / 10 ^ 1 := rfl
    rw [h]; norm_num
  have h : ((lexerOn "fadeout 1.5").stop_arguments).1
      = (some "fadeout", some (parse_f32 "1.5")) := rfl
  rw [h, h15]

/-- C7 counterexample: on a line where no statement keyword matches and
`word()` succeeds but no string literal follows — text `foo` — the parser
does not back out of the word branch: it fails at once with
"empty text in say statement", which is not the "expected statement." error
the claim says results only after three fallbacks all fail. -/
theorem c7_word_without_string_errors :
    (parse_statement 10 (lexerOn "foo")).1
      = .error (.parse ⟨"f", 1, "empty text in say statement", some "foo", some 3⟩) ∧
    "empty text in say statement" ≠ "expected statement." := by
  refine ⟨rfl, by decide⟩

/-- C7 amended: the fallback sequence has two branches, not three.  After a
checkpoint, (1) if `word()` succeeds, a string literal is required and
yields `Say(loc, some(word), what)`; if the string is missing the parser
errors with "empty text in say statement" without reverting.  (2) If
`word()` fails, the checkpoint is restored and a bare `string()` followed by
end of line yields `Say(loc, none, what)`.  There is no simple_expression
branch; when the bare-string attempt also fails the error is
"expected statement.". -/
theorem c7_fallback_amended :
    (parse_statement 10 (lexerOn "foo \"hi\"")).1 = .ok (.Say 1 (some "foo") "hi") ∧
    (parse_statement 10 (lexerOn "foo")).1
      = .error (.parse ⟨"f", 1, "empty text in say statement", some "foo", some 3⟩) ∧
    (parse_statement 10 (lexerOn "\"hi\"")).1 = .ok (.Say 1 none "hi") ∧
    (parse_statement 10 (lexerOn ":")).1
      = .error (.parse ⟨"f", 1, "expected statement.", some ":", some 0⟩) := by
  refine ⟨rfl, rfl, rfl, rfl⟩

/-- C9: the round trip parse → format → parse is defined on `"#x"\n` —
both parses succeed with no errors — yet the ASTs differ structurally:
`depth_split` drops the opening quote, so the first parse reads the comment
statement `Comment(1, x")`; its formatted form `#x"` is then discarded
entirely by the line scanner's comment handling on the second parse, which
yields the empty AST. -/
theorem c9_roundtrip_loses_comment :
    parse_scenario "script.rpy" "\"#x\"\n" = .ok ([.Comment 1 "x\""], []) ∧
    (AST.Comment 1 "x\"").format = "#x\"" ∧
    parse_scenario "script.rpy" ((AST.Comment 1 "x\"").format) = .ok ([], []) := by
  refine ⟨rfl, by simp [AST.format], by rfl⟩

/-- C3 counterexample: the tab check sits only in the main scanning loop;
the comment-skipping loop and the string-copying loop consume characters
without it.  A tab inside a comment is discarded with the comment and the
input scans to no logical lines at all, and a tab inside a string literal is
copied into the logical line — neither is the fatal ParseError the claim
requires for every tab. -/
theorem c3_tab_in_comment_or_string_ok :
    "#a\tb\n".toList.contains '\t' = true ∧
    list_logical_lines "script.rpy" "#a\tb\n" = .ok [] ∧
    "\"a\tb\"\n".toList.contains '\t' = true ∧
    list_logical_lines "script.rpy" "\"a\tb\"\n"
      = .ok [⟨"script.rpy", 1, "\"a\tb\""⟩] := by
  refine ⟨by decide, rfl, by decide, rfl⟩

/-- Characters the main scanning loop passes through without changing mode:
not a tab, not a backslash, no opening bracket, no comment marker, no string
delimiter (newlines are allowed and handled by the line-break branch); also
no carriage return and no BOM so that the preprocessing leaves them alone. -/
def C3Safe (c : Char) : Prop :=
  c ≠ '\t' ∧ c ≠ '\\' ∧ c ≠ '(' ∧ c ≠ '[' ∧ c ≠ '{' ∧ c ≠ '#' ∧
  c ≠ dquoteChar ∧ c ≠ squoteChar ∧ c ≠ bquoteChar ∧ c ≠ '\r' ∧ c ≠ bomChar

instance : DecidablePred C3Safe := by
  intro c
  unfold C3Safe
  infer_instance

theorem lllScan_tab (f : String) :
    ∀ (pre : List Char), (∀ c ∈ pre, C3Safe c) →
    ∀ (cs : List Char) (fuel number startN : Nat) (line : List Char)
      (acc : List LogicalLine) (pos : Nat),
      (pre ++ '\t' :: cs).length < fuel →
      errInfo (lllScan f fuel (pre ++ '\t' :: cs) .normal number startN 0 line acc pos)
        = some (tabMsg, number + pre.count '\n') := by
  intro pre
  induction pre with
  | nil =>
    intro _ cs fuel number startN line acc pos hfuel
    match fuel, hfuel with
    | fuel + 1, _ => simp [lllScan, errInfo]
  | cons c pre ih =>
    intro hsafe cs fuel number startN line acc pos hfuel
    obtain ⟨h1, h2, h3, h4, h5, h6, h7, h8, h9, h10, h11⟩ :=
      hsafe c (List.mem_cons_self c pre)
    have hpre : ∀ d ∈ pre, C3Safe d := fun d hd => hsafe d (List.mem_cons_of_mem c hd)
    have hfuel' : ∀ fuel', fuel = fuel' + 1 → (pre ++ '\t' :: cs).length < fuel' := by
      intro fuel' hf
      subst hf
      simp only [List.cons_append, List.length_cons] at hfuel
      omega
    match fuel, hfuel with
    | fuel + 1, _ =>
      have hlen := hfuel' fuel rfl
      by_cases hc : c = '\n'
      · subst hc
        have hne : ((pre ++ '\t' :: cs).isEmpty) = false := by
          simp [List.isEmpty_iff]
        have hstep :
            lllScan f (fuel + 1) ('\n' :: (pre ++ '\t' :: cs)) .normal number startN 0 line acc pos
              = lllScan f fuel (pre ++ '\t' :: cs) .normal (number + 1) (number + 1) 0 []
                  (if isBlankLine line then acc
                   else acc ++ [⟨f, startN, String.mk line⟩]) (pos + 1) := by
          simp [lllScan, hne]
        rw [List.cons_append, hstep,
            ih hpre cs fuel (number + 1) (number + 1) [] _ (pos + 1) hlen]
        simp [List.count_cons]
        omega
      · have hstep :
            lllScan f (fuel + 1) (c :: (pre ++ '\t' :: cs)) .normal number startN 0 line acc pos
              = lllScan f fuel (pre ++ '\t' :: cs) .normal number startN 0
                  (line ++ [c]) acc (pos + 1) := by
          simp [lllScan, h1, hc, h2, h3, h4, h5, h6, h7, h8, h9]
        rw [List.cons_append, hstep,
            ih hpre cs fuel number startN (line ++ [c]) acc (pos + 1) hlen]
        simp [List.count_cons, hc]

theorem replaceCRLF_cons_ne (c : Char) (l : List Char) (h : c ≠ '\r') :
    replaceCRLF (c :: l) = c :: replaceCRLF l := by
  conv_lhs => unfold replaceCRLF
  split
  · rename_i heq
    rw [List.cons.injEq] at heq
    exact absurd heq.1 h
  · rename_i heq
    rw [List.cons.injEq] at heq
    rw [heq.1, heq.2]
  · rename_i heq
    exact absurd heq (List.cons_ne_nil c l)

theorem replaceCRLF_append_no_cr (pre rest : List Char) (h : ∀ c ∈ pre, c ≠ '\r') :
    replaceCRLF (pre ++ rest) = pre ++ replaceCRLF rest := by
  induction pre with
  | nil => rfl
  | cons c pre ih =>
    have hc : c ≠ '\r' := h c (List.mem_cons_self c pre)
    have h' : ∀ d ∈ pre, d ≠ '\r' := fun d hd => h d (List.mem_cons_of_mem c hd)
    rw [List.cons_append, replaceCRLF_cons_ne c _ hc, ih h', List.cons_append]

/-- C3 amended: a literal tab is fatal exactly where the main scanning loop
sees it — outside string literals and comments; there `list_logical_lines`
reports the ParseError "Tab characters are not allowed in Ren'Py scripts" at
the tab's physical source line (1 plus the newlines before it).  Tabs inside
string literals or comments are consumed by the inner loops without the
check, as the counterexample records. -/
theorem c3_tab_fatal_outside (pre post : List Char) (hsafe : ∀ c ∈ pre, C3Safe c) :
    errInfo (list_logical_lines "script.rpy" (String.mk (pre ++ '\t' :: post)))
      = some (tabMsg, 1 + pre.count '\n') := by
  have hcr : ∀ c ∈ pre, c ≠ '\r' := fun c hc => (hsafe c hc).2.2.2.2.2.2.2.2.2.1
  have htl : (String.mk (pre ++ '\t' :: post)).toList = pre ++ '\t' :: post := rfl
  have hrep : replaceCRLF (pre ++ '\t' :: post) ++ ['\n', '\n']
      = pre ++ '\t' :: (replaceCRLF post ++ ['\n', '\n']) := by
    rw [replaceCRLF_append_no_cr pre ('\t' :: post) hcr,
        replaceCRLF_cons_ne '\t' post (by decide)]
    simp
  have hbom : (pre ++ '\t' :: (replaceCRLF post ++ ['\n', '\n'])).head? ≠ some bomChar := by
    cases pre with
    | nil =>
      simp only [List.nil_append, List.head?_cons]
      intro hcontra
      rw [Option.some.injEq] at hcontra
      exact absurd hcontra (by decide)
    | cons c pre =>
      simp only [List.cons_append, List.head?_cons]
      intro hcontra
      rw [Option.some.injEq] at hcontra
      exact absurd hcontra (hsafe c (List.mem_cons_self c pre)).2.2.2.2.2.2.2.2.2.2
  unfold list_logical_lines
  simp only [htl, hrep, if_neg hbom]
  exact lllScan_tab "script.rpy" pre hsafe (replaceCRLF post ++ ['\n', '\n'])
    ((pre ++ '\t' :: (replaceCRLF post ++ ['\n', '\n'])).length + 1) 1 1 [] [] 0
    (Nat.lt_succ_self _)

/-- C3 witness: the amended theorem applied to the input `ab\ncd<TAB>x\n`,
whose tab sits on physical line 2. -/
theorem c3_tab_fatal_outside_witness :
    (∀ c ∈ "ab\ncd".toList, C3Safe c) ∧
    errInfo (list_logical_lines "script.rpy"
        (String.mk ("ab\ncd".toList ++ '\t' :: "x\n".toList)))
      = some (tabMsg, 1 + "ab\ncd".toList.count '\n') :=
  ⟨by decide, c3_tab_fatal_outside "ab\ncd".toList "x\n".toList (by decide)⟩

/-- C8: whenever the scanner reaches end of input while a logical line is
still being built — inside the string-copying loop (for any delimiter and
escape state), or in the main loop with a nonempty accumulated line, which
is in particular the case while `paren_depth > 0`, since the opening bracket
was appended to the line — the result is the fatal ParseError
"is not terminated with a newline (check quotes and parenthesis)" with
`line_number` equal to `start_number`, the first physical line of that
logical line.  The input `"unterminated\n` reaches end of input inside the
string loop and reports that error at line 1. -/
theorem c8_unterminated :
    (∀ (fuel : Nat) (f : String) (delim : Char) (esc : Bool)
       (number startN paren : Nat) (line : List Char)
       (acc : List LogicalLine) (pos : Nat),
       0 < fuel → line ≠ [] →
       lllScan f fuel [] (.instr delim esc) number startN paren line acc pos
         = .error ⟨f, startN, untermMsg, none, some pos⟩ ∧
       lllScan f fuel [] .normal number startN paren line acc pos
         = .error ⟨f, startN, untermMsg, none, some pos⟩) ∧
    list_logical_lines "script.rpy" "\"unterminated\n"
      = .error ⟨"script.rpy", 1, untermMsg, none, some 16⟩ := by
  constructor
  · intro fuel f delim esc number startN paren line acc pos hf hl
    match fuel, hf with
    | fuel + 1, _ =>
      have hne : line.isEmpty = false := by simp [List.isEmpty_iff, hl]
      constructor <;> simp [lllScan, hne]
  · rfl

/-- C8 witness: the theorem applied at fuel 1 to the state reached with an
unclosed double quote (string mode, nonempty line) and, for the second
conjunct, an unclosed bracket (normal mode, paren 1, the bracket in the
line). -/
theorem c8_unterminated_witness :
    lllScan "f" 1 [] (.instr dquoteChar false) 3 2 0 [dquoteChar] [] 5
      = .error ⟨"f", 2, untermMsg, none, some 5⟩ ∧
    lllScan "f" 1 [] .normal 3 2 1 ['('] [] 5
      = .error ⟨"f", 2, untermMsg, none, some 5⟩ :=
  ⟨(c8_unterminated.1 1 "f" dquoteChar false 3 2 0 [dquoteChar] [] 5
      (by decide) (by decide)).1,
   (c8_unterminated.1 1 "f" '(' false 3 2 1 ['('] [] 5
      (by decide) (by decide)).2⟩

/-- C10: `inject_node` on Error-free inputs: the result has one more element
than the input, is sorted in non-decreasing order of the location index,
contains the new node with its index unchanged, and is a permutation of the
shifted input (every input node whose index is at least the new node's index
has its index raised by exactly one, every other input node is unchanged)
together with the new node. -/
theorem c10_inject_node_spec (ast : List AST) (node : AST)
    (hnode : node ≠ AST.Error) (hast : ∀ a ∈ ast, a ≠ AST.Error) :
    (inject_node ast node).length = ast.length + 1 ∧
    (inject_node ast node).Pairwise (fun a b => a.index ≤ b.index) ∧
    node ∈ inject_node ast node ∧
    (inject_node ast node).Perm
      ((ast.map (fun item =>
        if node.index ≤ item.index then item.set_index (item.index + 1) else item)) ++ [node]) := by
  unfold inject_node
  refine ⟨?_, ?_, ?_, ?_⟩
  · rw [List.length_mergeSort]
    simp
  · have h := @List.sorted_mergeSort AST
      (fun a b : AST => a.index ≤ b.index)
      (fun a b c h1 h2 => by
        simp only [decide_eq_true_eq] at *
        omega)
      (fun a b => by
        simp only [Bool.or_eq_true, decide_eq_true_eq]
        exact Nat.le_total a.index b.index)
      ((ast.map (fun item =>
        if node.index ≤ item.index then item.set_index (item.index + 1) else item)) ++ [node])
    exact h.imp (fun hab => by simpa using hab)
  · rw [List.mem_mergeSort]
    simp
  · exact List.mergeSort_perm _ _

/-- C10 witness: the theorem applied to two Error-free nodes and a new node
of index 2; the node of index 3 is shifted to 4, the node of index 1 is
unchanged. -/
theorem c10_inject_node_spec_witness :
    ((AST.Jump 2 "a" false) ≠ AST.Error ∧
     (∀ a ∈ [AST.Return 1 none, AST.Say 3 none "x"], a ≠ AST.Error)) ∧
    ((inject_node [AST.Return 1 none, AST.Say 3 none "x"] (AST.Jump 2 "a" false)).length
        = [AST.Return 1 none, AST.Say 3 none "x"].length + 1 ∧
     (inject_node [AST.Return 1 none, AST.Say 3 none "x"] (AST.Jump 2 "a" false)).Pairwise
        (fun a b => a.index ≤ b.index) ∧
     (AST.Jump 2 "a" false)
        ∈ inject_node [AST.Return 1 none, AST.Say 3 none "x"] (AST.Jump 2 "a" false) ∧
     (inject_node [AST.Return 1 none, AST.Say 3 none "x"] (AST.Jump 2 "a" false)).Perm
        (([AST.Return 1 none, AST.Say 3 none "x"].map (fun item =>
          if (AST.Jump 2 "a" false).index ≤ item.index then item.set_index (item.index + 1)
          else item)) ++ [AST.Jump 2 "a" false])) := by
  have hne : (AST.Jump 2 "a" false) ≠ AST.Error := fun h => nomatch h
  have hlist : ∀ a ∈ [AST.Return 1 none, AST.Say 3 none "x"], a ≠ AST.Error := by
    intro a ha h
    subst h
    simp at ha
  exact ⟨⟨hne, hlist⟩,
    c10_inject_node_spec [AST.Return 1 none, AST.Say 3 none "x"] (AST.Jump 2 "a" false) hne hlist⟩
